import Mathlib

/-!
Verification development for the PixelCheck cross-platform design-consistency
engine.  The definitions below are shallow embeddings of the JavaScript source:

* `Flat`       — the flat feature extractor (`extractFeatures`/`traverse` and the
  classifiers of the flat analyzer module).
* `Structural` — the structural-recipe analyzer (`extractFeatures`,
  `extractSemanticKeywords`, `findSemanticEquivalents`, `compareFeatures`).
* `Hier`       — the hierarchical extractor (`extractDetailedHierarchy`,
  `createComponentInventory`, `extractCardsWithDetails`).
* `Matcher`    — the AI matcher (`areComponentsSimilar` fast paths, the
  debounced batch queue, `batchStructuralMatch` and its fallback behaviour).

JavaScript strings become `String`, numbers become `Nat` (all counts involved
are non-negative integers), optional object fields become `Option`, JS arrays
become `List`, and the JS `Map` (insertion ordered) becomes an association
list with set-or-append update.
-/

/-! ### Small string utilities mirroring JavaScript string primitives -/

/-- `charsStartWith pat l` is true when `pat` is an initial segment of `l`
(char-list version of the check behind `String.prototype.includes`). -/
def charsStartWith : List Char → List Char → Bool
  | [], _ => true
  | _ :: _, [] => false
  | p :: ps, c :: cs => p == c && charsStartWith ps cs

/-- `charsHaveSub pat l` is true when `pat` occurs contiguously inside `l`. -/
def charsHaveSub (pat : List Char) : List Char → Bool
  | [] => pat.isEmpty
  | c :: cs => charsStartWith pat (c :: cs) || charsHaveSub pat cs

/-- JavaScript `s.includes(pat)` on the strings this program manipulates. -/
def strContains (s pat : String) : Bool :=
  charsHaveSub pat.data s.data

/-- JavaScript `s.toLowerCase()` (the program only lowercases ASCII names). -/
def strLower (s : String) : String :=
  ⟨s.data.map Char.toLower⟩

/-- JavaScript `s.trim()`: strip leading and trailing whitespace. -/
def strTrim (s : String) : String :=
  ⟨((s.data.dropWhile Char.isWhitespace).reverse.dropWhile
      Char.isWhitespace).reverse⟩

/-! ### The design-document tree (input data model)

A Figma node: `id`, optional `name`, a `type` string, optional `characters`
(text nodes), and a child list (a missing `children` field behaves like `[]`
everywhere in the source, so it is modelled as `[]`). -/

inductive DesignNode : Type where
  | mk (id : String) (name : Option String) (ntype : String)
       (characters : Option String) (children : List DesignNode)

def DesignNode.id : DesignNode → String
  | .mk i _ _ _ _ => i

def DesignNode.name : DesignNode → Option String
  | .mk _ n _ _ _ => n

def DesignNode.ntype : DesignNode → String
  | .mk _ _ t _ _ => t

def DesignNode.characters : DesignNode → Option String
  | .mk _ _ _ c _ => c

def DesignNode.children : DesignNode → List DesignNode
  | .mk _ _ _ _ cs => cs

/-- JavaScript `node.name || dflt` (the empty string is falsy). -/
def DesignNode.nameOr (n : DesignNode) (dflt : String) : String :=
  match n.name with
  | some s => if s = "" then dflt else s
  | none => dflt

/-- JavaScript `node.characters || ''`. -/
def DesignNode.charsOr (n : DesignNode) (dflt : String) : String :=
  match n.characters with
  | some s => if s = "" then dflt else s
  | none => dflt

namespace Flat

/-- Feature categories used by the flat extractor. -/
inductive FType : Type where
  | TEXT | BUTTON | ICON | OTHER
deriving DecidableEq, Repr

/-- A flat feature: `{ name, type }` as serialized by `JSON.stringify`. -/
structure Feature where
  name : String
  ftype : FType
deriving DecidableEq, Repr

/-- The three JS `Set`s of the flat extractor, as duplicate-free insertion
ordered lists (JS `Set.add` of the JSON string of the feature). -/
structure FeatureSet where
  text : List Feature
  buttons : List Feature
  all : List Feature
deriving DecidableEq, Repr

/-- `Set.add`: append unless an equal element is already present. -/
def addUnique (f : Feature) (l : List Feature) : List Feature :=
  if l.contains f then l else l ++ [f]

/-- Record one feature in the right bucket and in `all`
(the repeated push pattern of `traverse`). -/
def record (fs : FeatureSet) (f : Feature) : FeatureSet :=
  { text := if f.ftype = .BUTTON then fs.text else addUnique f fs.text
    buttons := if f.ftype = .BUTTON then addUnique f fs.buttons else fs.buttons
    all := addUnique f fs.all }

/-- `isIconComponent(name)` from the flat analyzer. -/
def isIconComponent (name : String) : Bool :=
  let lowerName := strLower name
  [ "heroicons", "material-symbols", "material-icons", "feather",
    "fontawesome", "icon", "/home", "/heart", "/map", "/explore",
    "/search", "/filter", "/menu", "/profile", "/settings"
  ].any (fun pattern => strContains lowerName pattern)

/-- `classifyTextElement(text, nodeName)` — note that the button-verb regexp
`^(sign in|...|cancel)$` is tested against the lowercased but *untrimmed*
`text`. -/
def classifyTextElement (text nodeName : String) : FType :=
  let lowerText := strLower text
  let lowerNodeName := strLower nodeName
  if strContains lowerNodeName "button" || strContains lowerNodeName "btn" then
    .BUTTON
  else if [ "sign in", "sign up", "login", "register", "submit",
            "continue", "next", "back", "cancel" ].contains lowerText then
    .BUTTON
  else
    .TEXT

/-- `classifyComponent(componentName)`. -/
def classifyComponent (componentName : String) : FType :=
  let lower := strLower componentName
  if strContains lower "button" || strContains lower "btn" then .BUTTON
  else .OTHER

/-- `classifyGroup(groupName)`. -/
def classifyGroup (groupName : String) : FType :=
  let lower := strLower groupName
  if strContains lower "(button)" || strContains lower "button" ||
      strContains lower "btn" then .BUTTON
  else .OTHER

/-- The non-recursive body of `traverse`: visit one node and record its
feature, if any. -/
def visitNode (node : DesignNode) (features : FeatureSet) : FeatureSet :=
  let nodeType := node.ntype
  let nodeName := node.nameOr ""
  if nodeType = "TEXT" then
    let text := node.charsOr ""
    if strTrim text ≠ "" then
      record features ⟨strTrim text, classifyTextElement text nodeName⟩
    else features
  else if nodeType = "COMPONENT" ∨ nodeType = "INSTANCE" then
    if strTrim nodeName ≠ "" then
      record features ⟨nodeName, classifyComponent nodeName⟩
    else features
  else if nodeType = "GROUP" ∨ nodeType = "FRAME" then
    if strTrim nodeName ≠ "" then
      let isIcon := isIconComponent nodeName
      if isIcon ∨ node.children.isEmpty then
        let t := if isIcon then FType.ICON else classifyGroup nodeName
        if t ≠ .OTHER then record features ⟨nodeName, t⟩ else features
      else features
    else features
  else features

mutual

/-- `traverse(node, features)` of the flat analyzer: visit the node, then
its children. -/
def traverse : DesignNode → FeatureSet → FeatureSet
  | node@(.mk _ _ _ _ children), features =>
    traverseList children (visitNode node features)

/-- `node.children.forEach(child => traverse(child, features))`. -/
def traverseList : List DesignNode → FeatureSet → FeatureSet
  | [], fs => fs
  | c :: cs, fs => traverseList cs (traverse c fs)

end

/-- `extractFeatures(documentNode)` of the flat analyzer. -/
def extractFeatures (documentNode : DesignNode) : FeatureSet :=
  traverse documentNode ⟨[], [], []⟩

end Flat

namespace Structural

/-- The child-composition recipe of a structural group. -/
structure Recipe where
  text : Nat
  buttons : Nat
  total : Nat
deriving DecidableEq, Repr

/-- A `StructuralGroup` as pushed by the structural analyzer's
`extractFeatures` (field `type` is rendered as `gtype`). -/
structure Group where
  name : String
  id : String
  gtype : String
  recipe : Recipe
  signature : String
  semanticKeywords : List String
deriving DecidableEq, Repr

/-- A flat text feature of the structural analyzer
(`{name, text, id}`; `name` falls back to a 30-char slice of the text). -/
structure TextFeature where
  name : String
  text : String
  id : String
deriving DecidableEq, Repr

/-- A fallback button feature (`{name, id, type}`; `name` is the raw
`node.name`, possibly absent). -/
structure ButtonFeature where
  name : Option String
  id : String
  btype : String
deriving DecidableEq, Repr

/-- The accumulator `{ text: [], buttons: [], groups: [] }`. -/
structure Features where
  text : List TextFeature
  buttons : List ButtonFeature
  groups : List Group
deriving DecidableEq, Repr

/-- The structural signature `` `T${textCount}B${buttonCount}` ``. -/
def mkSignature (textCount buttonCount : Nat) : String :=
  "T" ++ Nat.repr textCount ++ "B" ++ Nat.repr buttonCount

/-- The fixed semantic vocabulary (`semanticMap`), in source order. -/
def semanticMap : List (String × List String) :=
  [ ("search", ["search", "find", "query", "lookup"]),
    ("notification", ["bell", "notification", "alert", "notify"]),
    ("user", ["user", "profile", "account", "avatar"]),
    ("menu", ["menu", "hamburger", "nav", "drawer"]),
    ("filter", ["filter", "sort", "refine"]),
    ("location", ["location", "map", "pin", "marker", "gps"]),
    ("time", ["time", "clock", "schedule", "calendar"]),
    ("favorite", ["favorite", "heart", "like", "bookmark", "star"]) ]

/-- `extractSemanticKeywords(name)`. -/
def extractSemanticKeywords (name : String) : List String :=
  let normalized := strLower name
  (semanticMap.filter
    (fun p => p.2.any (fun term => strContains normalized term))).map (·.1)

/-- The button-likeness test on a direct child used when computing
`buttonCount` of a recipe. -/
def isButtonNamed (c : DesignNode) : Bool :=
  strContains (strLower (c.nameOr "")) "button" ||
  strContains (strLower (c.nameOr "")) "btn" ||
  strContains (strLower (c.nameOr "")) "cta"

/-- The first block of the structural `extractFeatures` body: push a
structural group for container nodes with more than one child or of
COMPONENT/INSTANCE type. -/
def pushGroup (node : DesignNode) (features : Features) : Features :=
  let containerTypes := ["FRAME", "GROUP", "COMPONENT", "INSTANCE"]
  if containerTypes.contains node.ntype then
    let children := node.children
    let textCount := (children.filter (fun c => c.ntype = "TEXT")).length
    let buttonCount := (children.filter isButtonNamed).length
    if children.length > 1 ∨ node.ntype = "COMPONENT" ∨
        node.ntype = "INSTANCE" then
      let semanticKeywords := extractSemanticKeywords (node.nameOr "")
      { features with groups := features.groups ++
          [{ name := node.nameOr "Unnamed Group"
             id := node.id
             gtype := node.ntype
             recipe := ⟨textCount, buttonCount, children.length⟩
             signature := mkSignature textCount buttonCount
             semanticKeywords := semanticKeywords }] }
    else features
  else features

/-- The second block: the flat fallback push of a non-empty text node. -/
def pushText (node : DesignNode) (features : Features) : Features :=
  if node.ntype = "TEXT" ∧ strTrim (node.charsOr "") ≠ "" then
    { features with text := features.text ++
        [{ name := node.nameOr ⟨(node.charsOr "").data.take 30⟩
           text := node.charsOr ""
           id := node.id }] }
  else features

/-- The third block: the flat fallback push of a button-named non-text
node. -/
def pushButton (node : DesignNode) (features : Features) : Features :=
  let buttonKeywords := ["button", "btn", "cta", "action"]
  let nodeName := strLower (node.nameOr "")
  if (buttonKeywords.any fun keyword => strContains nodeName keyword) &&
      node.ntype ≠ "TEXT" then
    { features with buttons := features.buttons ++
        [{ name := node.name, id := node.id, btype := node.ntype }] }
  else features

/-- The non-recursive body of the structural `extractFeatures`: the three
sequential blocks (group push, text fallback, button fallback). -/
def visitStructural (node : DesignNode) (features : Features) : Features :=
  pushButton node (pushText node (pushGroup node features))

mutual

/-- The structural analyzer's `extractFeatures(node, features)`. -/
def extractFeatures : DesignNode → Features → Features
  | node@(.mk _ _ _ _ children), features =>
    extractList children (visitStructural node features)

/-- `node.children.forEach(child => extractFeatures(child, features))`. -/
def extractList : List DesignNode → Features → Features
  | [], fs => fs
  | c :: cs, fs => extractList cs (extractFeatures c fs)

end

/-- The duck-typed first argument of `findSemanticEquivalents`.  At the call
site inside `compareFeatures` it is an identity record, which has *no*
`semanticKeywords` property, so the field is an `Option`. -/
structure SemTarget where
  name : String
  semanticKeywords : Option (List String)
deriving DecidableEq, Repr

/-- `[...new Set(xs)]`: drop duplicates, keeping first occurrences. -/
def jsUniqueAux : List String → List String → List String
  | [], acc => acc
  | x :: xs, acc =>
    if acc.contains x then jsUniqueAux xs acc else jsUniqueAux xs (acc ++ [x])

def jsUnique (l : List String) : List String := jsUniqueAux l []

/-- `findSemanticEquivalents(targetData, androidGroups, iosGroups,
webGroups)`: names of groups on the given platforms sharing a semantic
keyword with the target (`targetData.semanticKeywords || []`). -/
def findSemanticEquivalents (targetData : SemTarget)
    (androidGroups iosGroups webGroups : List Group) : List String :=
  let targetKeywords := targetData.semanticKeywords.getD []
  if targetKeywords.length = 0 then []
  else
    let allGroups := androidGroups ++ iosGroups ++ webGroups
    let equivalents := (allGroups.filter (fun group =>
        let groupKeywords := group.semanticKeywords
        (targetKeywords.any fun kw => groupKeywords.contains kw) &&
          group.name ≠ targetData.name)).map (·.name)
    jsUnique equivalents

/-- Per-platform occurrence counts of one identity. -/
structure Counts where
  android : Nat
  ios : Nat
  web : Nat
deriving DecidableEq, Repr

/-- The value stored in the `identities` map by `trackIdentity`.  Note: the
source object literal has exactly the keys `name`, `signature`, `recipe`,
`counts` — in particular it has no `semanticKeywords` key. -/
structure IdData where
  name : String
  signature : String
  recipe : Recipe
  counts : Counts
deriving DecidableEq, Repr

inductive Platform : Type where
  | android | ios | web
deriving DecidableEq, Repr

/-- `identities.get(id).counts[platform]++`. -/
def bump (p : Platform) (c : Counts) : Counts :=
  match p with
  | .android => { c with android := c.android + 1 }
  | .ios => { c with ios := c.ios + 1 }
  | .web => { c with web := c.web + 1 }

/-- `` `${g.name}|${g.signature}` ``. -/
def getIdentity (g : Group) : String := g.name ++ "|" ++ g.signature

/-- Update the value stored under `key` (JS `Map` update in place). -/
def updateAssoc (m : List (String × IdData)) (key : String)
    (f : IdData → IdData) : List (String × IdData) :=
  m.map (fun kv => if kv.1 = key then (kv.1, f kv.2) else kv)

/-- `trackIdentity(platform, group)`: insert a fresh identity record if the
key is new, then increment that platform's count. -/
def trackIdentity (platform : Platform) (m : List (String × IdData))
    (group : Group) : List (String × IdData) :=
  let id := getIdentity group
  let m1 :=
    if (m.lookup id).isSome then m
    else m ++ [(id, { name := group.name, signature := group.signature,
                      recipe := group.recipe, counts := ⟨0, 0, 0⟩ })]
  updateAssoc m1 id (fun d => { d with counts := bump platform d.counts })

/-- The `identities` map after tallying all three platforms' groups. -/
def buildIdentities (androidGroups iosGroups webGroups : List Group) :
    List (String × IdData) :=
  webGroups.foldl (trackIdentity .web)
    (iosGroups.foldl (trackIdentity .ios)
      (androidGroups.foldl (trackIdentity .android) []))

/-- One platform's summary block in the results. -/
structure PlatTotals where
  total : Nat
  text : Nat
  buttons : Nat
deriving DecidableEq, Repr

/-- One entry of `results.mapping.text`. -/
structure MapEntry where
  name : String
  platforms : String
  countInfo : String
  icon : String
  details : String
deriving DecidableEq, Repr

/-- The result object of the structural `compareFeatures`. -/
structure CompareResults where
  android : PlatTotals
  ios : PlatTotals
  web : PlatTotals
  consistent : Nat
  inconsistent : Nat
  mappingText : List MapEntry
  mappingButtons : List MapEntry
  mappingRecipes : List MapEntry
deriving DecidableEq, Repr

def maxThree (a b c : Nat) : Nat := max a (max b c)

/-- The body of `identities.forEach((data, id) => ...)` in
`compareFeatures`, processing one identity.  The `semanticEquivalents`
lookup passes `semanticKeywords := none` because the identity record built
by `trackIdentity` has no such property (`targetData.semanticKeywords` is
`undefined` in the source, hence `|| []`). -/
def processIdentity (androidGroups iosGroups webGroups : List Group)
    (results : CompareResults) (entry : String × IdData) : CompareResults :=
  let data := entry.2
  let a := data.counts.android
  let i := data.counts.ios
  let w := data.counts.web
  let platformsPresent :=
    (if a > 0 then ["Android"] else []) ++
    (if i > 0 then ["iOS"] else []) ++
    (if w > 0 then ["Web"] else [])
  let platStr := String.intercalate ", " platformsPresent
  let allPresent := platformsPresent.length = 3
  let countsMatch := a = i ∧ i = w
  if allPresent ∧ countsMatch then
    { results with
      consistent := results.consistent + a
      mappingText := results.mappingText ++
        [{ name := data.name, platforms := platStr
           countInfo := "Count: " ++ Nat.repr a ++ " across all"
           icon := "✅"
           details := "✅ Structurally Perfect & Counts Match" }] }
  else
    let maxC := maxThree a i w
    let inc1 := results.inconsistent + maxC
    let countInfoStr := "Counts - A:" ++ Nat.repr a ++ ", I:" ++ Nat.repr i ++
      ", W:" ++ Nat.repr w
    if ¬allPresent then
      let missing :=
        (if a = 0 then ["Android"] else []) ++
        (if i = 0 then ["iOS"] else []) ++
        (if w = 0 then ["Web"] else [])
      let semanticEquivalents := findSemanticEquivalents
        { name := data.name, semanticKeywords := none }
        (if missing.contains "Android" then androidGroups else [])
        (if missing.contains "iOS" then iosGroups else [])
        (if missing.contains "Web" then webGroups else [])
      if semanticEquivalents.length > 0 then
        { results with
          consistent := results.consistent + maxC
          inconsistent := inc1 - maxC
          mappingText := results.mappingText ++
            [{ name := data.name, platforms := platStr
               countInfo := countInfoStr, icon := "⚠️"
               details := "🔄 Alternative Implementation Found: " ++
                 String.intercalate ", " semanticEquivalents }] }
      else
        { results with
          inconsistent := inc1
          mappingText := results.mappingText ++
            [{ name := data.name, platforms := platStr
               countInfo := countInfoStr, icon := "⚠️"
               details := "Missing on: " ++ String.intercalate ", " missing }] }
    else
      { results with
        inconsistent := inc1
        mappingText := results.mappingText ++
          [{ name := data.name, platforms := platStr
             countInfo := countInfoStr, icon := "⚠️"
             details := "Count Mismatch (A:" ++ Nat.repr a ++ ", I:" ++
               Nat.repr i ++ ", W:" ++ Nat.repr w ++ ")" }] }

/-- The structural `compareFeatures(androidFeatures, iosFeatures,
webFeatures)`. -/
def compareFeatures (androidFeatures iosFeatures webFeatures : Features) :
    CompareResults :=
  let init : CompareResults :=
    { android := ⟨androidFeatures.groups.length, androidFeatures.text.length,
        androidFeatures.buttons.length⟩
      ios := ⟨iosFeatures.groups.length, iosFeatures.text.length,
        iosFeatures.buttons.length⟩
      web := ⟨webFeatures.groups.length, webFeatures.text.length,
        webFeatures.buttons.length⟩
      consistent := 0, inconsistent := 0
      mappingText := [], mappingButtons := [], mappingRecipes := [] }
  let identities := buildIdentities androidFeatures.groups iosFeatures.groups
    webFeatures.groups
  identities.foldl
    (processIdentity androidFeatures.groups iosFeatures.groups
      webFeatures.groups) init

end Structural

namespace Hier

/-- Values of `structure.componentType` (a missing property is `none`). -/
inductive CompType : Type where
  | text | icon | button | container | inst
deriving DecidableEq, Repr

/-- The nested structure built by `extractDetailedHierarchy`.  The source
sets `children` only when non-empty; a missing property and `[]` are
identified. -/
inductive HStructure : Type where
  | mk (htype hname hid : String) (depth : Nat)
       (componentType : Option CompType) (textContent : Option String)
       (iconName : Option String) (instanceName : Option String)
       (children : List HStructure)

def HStructure.htype : HStructure → String
  | .mk t _ _ _ _ _ _ _ _ => t

def HStructure.hname : HStructure → String
  | .mk _ n _ _ _ _ _ _ _ => n

def HStructure.hid : HStructure → String
  | .mk _ _ i _ _ _ _ _ _ => i

def HStructure.componentType : HStructure → Option CompType
  | .mk _ _ _ _ ct _ _ _ _ => ct

def HStructure.textContent : HStructure → Option String
  | .mk _ _ _ _ _ tc _ _ _ => tc

def HStructure.iconName : HStructure → Option String
  | .mk _ _ _ _ _ _ ic _ _ => ic

def HStructure.instanceName : HStructure → Option String
  | .mk _ _ _ _ _ _ _ inm _ => inm

def HStructure.children : HStructure → List HStructure
  | .mk _ _ _ _ _ _ _ _ cs => cs

/-- JavaScript `a || b` on an optional string (`undefined` and `''` are
falsy). -/
def jsOr (o : Option String) (dflt : String) : String :=
  match o with
  | some s => if s = "" then dflt else s
  | none => dflt

/-- `isIcon(node)` of the hierarchical extractor. -/
def isIcon (node : DesignNode) : Bool :=
  let name := strLower (node.nameOr "")
  strContains name "icon" || strContains name ":" || strContains name "/" ||
  strContains name "mynai" ||
  (node.ntype = "INSTANCE" &&
    (strContains name "icon" || strContains name ":"))

/-- `isButton(node)` of the hierarchical extractor. -/
def isButton (node : DesignNode) : Bool :=
  let name := strLower (node.nameOr "")
  strContains name "button" || strContains name "btn" ||
    strContains name "cta"

/-- The classification chain of `extractDetailedHierarchy`:
componentType plus the extra `textContent` / `iconName` / `instanceName`
properties. -/
def classifyNode (node : DesignNode) :
    Option CompType × Option String × Option String × Option String :=
  if node.ntype = "TEXT" then
    (some .text, some ⟨(node.charsOr "").data.take 50⟩, none, none)
  else if isIcon node then
    (some .icon, none, node.name, none)
  else if isButton node then
    (some .button, none, none, none)
  else if node.ntype = "FRAME" ∨ node.ntype = "GROUP" then
    (some .container, none, none, none)
  else if node.ntype = "INSTANCE" then
    (some .inst, none, none, node.name)
  else
    (none, none, none, none)

mutual

/-- `extractDetailedHierarchy(node, depth, maxDepth)`: `null` when the
depth cap is exceeded, otherwise the classified structure with recursively
extracted children (`.map(...).filter(Boolean)` keeps the surviving ones in
order). -/
def extractDetailedHierarchy : DesignNode → Nat → Nat → Option HStructure
  | node@(.mk _ _ _ _ children), depth, maxDepth =>
    if depth > maxDepth then none
    else
      let c := classifyNode node
      some (.mk node.ntype (node.nameOr "Unnamed") node.id depth
        c.1 c.2.1 c.2.2.1 c.2.2.2 (edhList children (depth + 1) maxDepth))

/-- `node.children.map(child => extractDetailedHierarchy(child, depth+1,
maxDepth)).filter(Boolean)`. -/
def edhList : List DesignNode → Nat → Nat → List HStructure
  | [], _, _ => []
  | c :: cs, d, m =>
    match extractDetailedHierarchy c d m with
    | some s => s :: edhList cs d m
    | none => edhList cs d m

end

/-- One entry of `inventory.texts`. -/
structure TextItem where
  name : String
  path : String
  content : String
deriving DecidableEq, Repr

/-- One entry of `inventory.icons` / `buttons` / `instances`. -/
structure NamePath where
  name : String
  path : String
deriving DecidableEq, Repr

/-- One entry of `inventory.frames`. -/
structure FrameItem where
  name : String
  path : String
  childCount : Nat
deriving DecidableEq, Repr

/-- The inventory accumulated by `createComponentInventory`. -/
structure Inventory where
  texts : List TextItem
  icons : List NamePath
  buttons : List NamePath
  frames : List FrameItem
  instances : List NamePath
deriving DecidableEq, Repr

/-- The categorisation step of the inner `traverse` of
`createComponentInventory` (one node, with its accumulated path). -/
def invCategorize (node : HStructure) (currentPath : List String)
    (inv : Inventory) : Inventory :=
  let path := String.intercalate " > " currentPath
  match node.componentType with
  | some .text =>
    { inv with texts := inv.texts ++
        [⟨node.hname, path, (node.textContent).getD ""⟩] }
  | some .icon =>
    { inv with icons := inv.icons ++ [⟨jsOr node.iconName node.hname, path⟩] }
  | some .button =>
    { inv with buttons := inv.buttons ++ [⟨node.hname, path⟩] }
  | some .container =>
    { inv with frames := inv.frames ++
        [⟨node.hname, path, node.children.length⟩] }
  | some .inst =>
    { inv with instances := inv.instances ++
        [⟨jsOr node.instanceName node.hname, path⟩] }
  | none => inv

mutual

/-- The inner `traverse(node, path)` of `createComponentInventory`. -/
def invTraverse : HStructure → List String → Inventory → Inventory
  | node@(.mk _ _ _ _ _ _ _ _ children), path, inv =>
    let currentPath := path ++ [node.hname]
    invTraverseList children currentPath (invCategorize node currentPath inv)

def invTraverseList : List HStructure → List String → Inventory → Inventory
  | [], _, inv => inv
  | c :: cs, path, inv => invTraverseList cs path (invTraverse c path inv)

end

/-- `createComponentInventory(structure)`. -/
def createComponentInventory (s : HStructure) : Inventory :=
  invTraverse s [] ⟨[], [], [], [], []⟩

/-- `countIconsByName(inventory)`: occurrence counts keyed by icon name,
in first-occurrence order (JS object key insertion order). -/
def countIconsByName (inv : Inventory) : List (String × Nat) :=
  inv.icons.foldl
    (fun acc icon =>
      if (acc.lookup icon.name).isSome then
        acc.map (fun kv =>
          if kv.1 = icon.name then (kv.1, kv.2 + 1) else kv)
      else acc ++ [(icon.name, 1)])
    []

/-- `hasCardPattern(structure)`.  In the source a node with no children has
no `children` property and returns `false` immediately; `children = []`
models exactly that case. -/
def hasCardPattern (s : HStructure) : Bool :=
  if s.children.isEmpty then false
  else
    let inv := createComponentInventory s
    inv.texts.length > 0 &&
      (inv.icons.length > 0 || inv.buttons.length > 0)

/-- The `inventory` summary attached to a card. -/
structure CardInventory where
  texts : Nat
  icons : List (String × Nat)
  buttons : Nat
  frames : Nat
  instances : Nat
deriving DecidableEq, Repr

/-- A card as pushed by `extractCardsWithDetails` (the report-formatting
`detailedString` and the back-reference `fullStructure` are not needed by
any claim and are omitted). -/
structure Card where
  name : String
  id : String
  inventory : CardInventory
deriving DecidableEq, Repr

mutual

/-- `extractCardsWithDetails(structure, cards, depth)`: push feature-level
FRAMEs and stop descending inside them; otherwise recurse into children
with `depth + 1`. -/
def extractCardsWithDetails : HStructure → List Card → Nat → List Card
  | s@(.mk _ _ _ _ _ _ _ _ children), cards, depth =>
    if depth > 10 then cards
    else
      let lowName := strLower s.hname
      let isMainFeature := s.htype = "FRAME" && children.length ≥ 2 &&
        (strContains lowName "card" || strContains lowName "item" ||
         strContains lowName "section" || strContains lowName "header" ||
         strContains lowName "bar" || hasCardPattern s)
      if isMainFeature then
        let inventory := createComponentInventory s
        let iconCounts := countIconsByName inventory
        if inventory.texts.length > 0 || inventory.buttons.length > 0 then
          cards ++
            [{ name := s.hname, id := s.hid
               inventory :=
                 { texts := inventory.texts.length, icons := iconCounts
                   buttons := inventory.buttons.length
                   frames := inventory.frames.length
                   instances := inventory.instances.length } }]
        else cardsList children cards (depth + 1)
      else cardsList children cards (depth + 1)

/-- `structure.children.forEach(child =>
extractCardsWithDetails(child, cards, depth + 1))`. -/
def cardsList : List HStructure → List Card → Nat → List Card
  | [], cards, _ => cards
  | c :: cs, cards, d => cardsList cs (extractCardsWithDetails c cards d) d

end

/-- The result of `extractHierarchicalFeatures` (console logging and the
summary block aside). -/
structure HierResult where
  fullTree : Option HStructure
  cards : List Card

/-- `extractHierarchicalFeatures(figmaDocument)`:  build the capped tree
(`maxDepth = 15`), then collect cards (a `null` tree yields no cards, as the
source's `!structure` guard does). -/
def extractHierarchicalFeatures (figmaDocument : DesignNode) : HierResult :=
  let tree := extractDetailedHierarchy figmaDocument 0 15
  let cards :=
    match tree with
    | some t => extractCardsWithDetails t [] 0
    | none => []
  ⟨tree, cards⟩

end Hier

namespace Matcher

open Structural (Group Recipe)

/-- How one invocation of `areComponentsSimilar` behaves before any oracle
interaction: resolve synchronously, or push onto the shared
`comparisonQueue` under the pair key `` `${g1.name}__${g2.name}` ``. -/
inductive MatchOutcome : Type where
  | resolved (b : Bool)
  | queued (id : String)
deriving DecidableEq, Repr

/-- The synchronous part of `areComponentsSimilar(group1, group2)`:
the two hard deterministic filters, then the queueing decision. -/
def areComponentsSimilarSync (group1 group2 : Group) : MatchOutcome :=
  if group1.recipe.text ≠ group2.recipe.text ∨
      group1.recipe.buttons ≠ group2.recipe.buttons then
    .resolved false
  else if group1.name = group2.name ∧ group1.signature = group2.signature then
    .resolved true
  else
    .queued (group1.name ++ "__" ++ group2.name)

/-- An element of the `comparisonQueue` (its `resolve` callback is
represented by the position of the pair in the batch). -/
structure MPair where
  id : String
  c1 : Group
  c2 : Group
deriving DecidableEq, Repr

/-- The pair pushed for an ambiguous call. -/
def mkPair (group1 group2 : Group) : MPair :=
  ⟨group1.name ++ "__" ++ group2.name, group1, group2⟩

/-- `Number(ds)` for a non-empty digit run. -/
def digitsVal (ds : List Char) : Nat :=
  ds.foldl (fun a c => a * 10 + (c.toNat - 48)) 0

/-- Leftmost match of the JavaScript regexp `/(\d+):([YN])/i` on one line: a
maximal digit run followed by `:` and one of `Y/y/N/n` (shortening the
greedy `\d+` cannot help, since the run would then be followed by another
digit rather than `:`). -/
def regexFindYN : List Char → Option (Nat × Bool)
  | [] => none
  | c :: cs =>
    if c.isDigit then
      let ds := (c :: cs).takeWhile Char.isDigit
      let rest := (c :: cs).dropWhile Char.isDigit
      match rest with
      | ':' :: v :: _ =>
        if v = 'Y' ∨ v = 'y' then some (digitsVal ds, true)
        else if v = 'N' ∨ v = 'n' then some (digitsVal ds, false)
        else regexFindYN cs
      | _ => regexFindYN cs
    else regexFindYN cs

/-- `response.split('\n')`. -/
def splitCharsOn (sep : Char) : List Char → List Char → List String
  | [], acc => [⟨acc.reverse⟩]
  | c :: cs, acc =>
    if c = sep then (⟨acc.reverse⟩ : String) :: splitCharsOn sep cs []
    else splitCharsOn sep cs (c :: acc)

def splitLines (s : String) : List String :=
  splitCharsOn '\n' s.data []

/-- JS `Map.set`: overwrite an existing key in place, else append. -/
def mapSet (m : List (String × Bool)) (k : String) (v : Bool) :
    List (String × Bool) :=
  if (m.lookup k).isSome then
    m.map (fun kv => if kv.1 = k then (kv.1, v) else kv)
  else m ++ [(k, v)]

/-- The response-parsing loop of `batchStructuralMatch`: for each line with
a `/(\d+):([YN])/i` match, store the verdict under `pairs[idx].id` where
`idx = Number(match[1]) - 1` (for `match[1] = "0"` the JS index is `-1` and
`pairs[-1]` is `undefined`, so the line is skipped). -/
def parseResponse (body : String) (pairs : List MPair) :
    List (String × Bool) :=
  (splitLines body).foldl
    (fun resultMap line =>
      match regexFindYN line.data with
      | some (n, val) =>
        if n = 0 then resultMap
        else
          match pairs.get? (n - 1) with
          | some p => mapSet resultMap p.id val
          | none => resultMap
      | none => resultMap)
    []

/-- Outcome of one `callAI(token)` invocation: a response body, or a thrown
error carrying `err.response?.status`. -/
inductive CallResult : Type where
  | ok (body : String)
  | err (status : Option Nat)
deriving DecidableEq, Repr

/-- `batchStructuralMatch(pairs)` given the outcomes of the first oracle
call and (if reached) the post-refresh retry: empty input short-circuits to
an empty map; a 401 triggers exactly one retry; any other error — and a
failed retry — is rethrown to the caller. -/
def batchStructuralMatch (pairs : List MPair)
    (firstCall retryCall : CallResult) :
    Except (Option Nat) (List (String × Bool)) :=
  if pairs.isEmpty then .ok []
  else
    match firstCall with
    | .ok body => .ok (parseResponse body pairs)
    | .err st =>
      if st = some 401 then
        match retryCall with
        | .ok body => .ok (parseResponse body pairs)
        | .err st2 => .error st2
      else .error st

/-- The debounce-timer callback of `areComponentsSimilar`: resolve every
queued pair of the drained batch.  On success each pair resolves to
`results.get(item.id) ?? false`; if `batchStructuralMatch` threw, every
pair resolves to the deterministic fallback
`item.c1.name.toLowerCase() === item.c2.name.toLowerCase()`.  The function
is total: no caller's promise is ever rejected. -/
def flushBatch (batch : List MPair) (firstCall retryCall : CallResult) :
    List Bool :=
  match batchStructuralMatch batch firstCall retryCall with
  | .ok results => batch.map (fun item => (results.lookup item.id).getD false)
  | .error _ => batch.map (fun item =>
      strLower item.c1.name == strLower item.c2.name)

/-- The matcher's shared mutable state: the pending `comparisonQueue` and
whether a `flushTimer` is outstanding. -/
structure MatcherState where
  queue : List MPair
  timerSet : Bool
deriving DecidableEq, Repr

/-- Events of the batching state machine: an `areComponentsSimilar` call,
or the debounce timer firing. -/
inductive MEvent : Type where
  | call (group1 group2 : Group)
  | timerFire
deriving DecidableEq, Repr

/-- One step of the queue/timer state machine.  A `call` either resolves
synchronously (state untouched) or appends its pair and ensures a timer is
outstanding.  `timerFire` performs `comparisonQueue.splice(0)` followed by
`flushTimer = null`: the queue is drained and cleared *before* the
asynchronous oracle call, whose batch is emitted as the event's output. -/
def stepEvent (s : MatcherState) : MEvent → MatcherState × List (List MPair)
  | .call group1 group2 =>
    match areComponentsSimilarSync group1 group2 with
    | .resolved _ => (s, [])
    | .queued id => ({ queue := s.queue ++ [⟨id, group1, group2⟩],
                       timerSet := true }, [])
  | .timerFire => (⟨[], false⟩, [s.queue])

/-- Run a sequence of events, accumulating the oracle batches issued. -/
def runEventsFrom : List MEvent →
    MatcherState × List (List MPair) → MatcherState × List (List MPair)
  | [], st => st
  | e :: es, (s, out) =>
    let r := stepEvent s e
    runEventsFrom es (r.1, out ++ r.2)

def runEvents (events : List MEvent) (s : MatcherState) :
    MatcherState × List (List MPair) :=
  runEventsFrom events (s, [])

end Matcher

/-! ### Decimal-rendering facts

`Structural.mkSignature` renders the two recipe counts with `Nat.repr`.
The lemmas below establish that the rendered signature determines the two
counts: decimal digit strings contain no `'B'`, and `Matcher.digitsVal`
recovers the value, so `"T" ++ repr t ++ "B" ++ repr b` can be split and
decoded uniquely. -/

theorem toDigitsCore_append (fuel : Nat) : ∀ (n : Nat) (ds : List Char),
    Nat.toDigitsCore 10 fuel n ds = Nat.toDigitsCore 10 fuel n [] ++ ds := by
  induction fuel with
  | zero => intro n ds; simp [Nat.toDigitsCore]
  | succ f ih =>
    intro n ds
    simp only [Nat.toDigitsCore]
    by_cases h : n / 10 = 0
    · simp [h]
    · simp only [h, if_false]
      rw [ih (n / 10) (Nat.digitChar (n % 10) :: ds),
        ih (n / 10) [Nat.digitChar (n % 10)]]
      simp

theorem toDigitsCore_fuel : ∀ (n f₁ f₂ : Nat), n < f₁ → n < f₂ →
    Nat.toDigitsCore 10 f₁ n [] = Nat.toDigitsCore 10 f₂ n [] := by
  intro n
  induction n using Nat.strong_induction_on with
  | _ n ih =>
    intro f₁ f₂ h₁ h₂
    obtain ⟨a, rfl⟩ : ∃ a, f₁ = a + 1 := ⟨f₁ - 1, by omega⟩
    obtain ⟨b, rfl⟩ : ∃ b, f₂ = b + 1 := ⟨f₂ - 1, by omega⟩
    simp only [Nat.toDigitsCore]
    by_cases h : n / 10 = 0
    · simp [h]
    · simp only [h, if_false]
      have hpos : 0 < n := by
        rcases Nat.eq_zero_or_pos n with h0 | h0
        · exact absurd (by simp [h0]) h
        · exact h0
      have hd : n / 10 < n := Nat.div_lt_self hpos (by norm_num)
      rw [toDigitsCore_append a, toDigitsCore_append b,
        ih (n / 10) hd a b (by omega) (by omega)]

theorem digitsVal_append (xs : List Char) (c : Char) :
    Matcher.digitsVal (xs ++ [c]) =
      Matcher.digitsVal xs * 10 + (c.toNat - 48) := by
  simp [Matcher.digitsVal, List.foldl_append]

theorem digitChar_val : ∀ m : Nat, m < 10 →
    (Nat.digitChar m).toNat - 48 = m := by decide

theorem digitsVal_toDigits : ∀ n : Nat,
    Matcher.digitsVal (Nat.toDigits 10 n) = n := by
  intro n
  induction n using Nat.strong_induction_on with
  | _ n ih =>
    simp only [Nat.toDigits, Nat.toDigitsCore]
    by_cases h : n / 10 = 0
    · have hn : n < 10 := by
        by_contra hge
        push_neg at hge
        have : 1 ≤ n / 10 := (Nat.one_le_div_iff (by norm_num)).mpr hge
        omega
      simp [h, Matcher.digitsVal, Nat.mod_eq_of_lt hn, digitChar_val n hn]
    · simp only [h, if_false]
      have hpos : 0 < n := by
        rcases Nat.eq_zero_or_pos n with h0 | h0
        · exact absurd (by simp [h0]) h
        · exact h0
      have hd : n / 10 < n := Nat.div_lt_self hpos (by norm_num)
      rw [toDigitsCore_append]
      have hfix : Nat.toDigitsCore 10 n (n / 10) [] = Nat.toDigits 10 (n / 10) := by
        simp only [Nat.toDigits]
        exact toDigitsCore_fuel (n / 10) n (n / 10 + 1) (by omega) (by omega)
      rw [hfix, digitsVal_append, ih (n / 10) hd,
        digitChar_val (n % 10) (Nat.mod_lt n (by norm_num))]
      omega

theorem digitChar_isDigit : ∀ m : Nat, m < 10 →
    (Nat.digitChar m).isDigit = true := by decide

theorem toDigitsCore_isDigit : ∀ (fuel n : Nat) (acc : List Char),
    (∀ c ∈ acc, c.isDigit = true) →
    ∀ c ∈ Nat.toDigitsCore 10 fuel n acc, c.isDigit = true := by
  intro fuel
  induction fuel with
  | zero => intro n acc hacc; simpa [Nat.toDigitsCore] using hacc
  | succ f ih =>
    intro n acc hacc
    simp only [Nat.toDigitsCore]
    have hdig : (Nat.digitChar (n % 10)).isDigit = true :=
      digitChar_isDigit (n % 10) (Nat.mod_lt n (by norm_num))
    by_cases h : n / 10 = 0
    · simp only [h, if_pos]
      intro c hc
      rcases List.mem_cons.mp hc with rfl | hc
      · exact hdig
      · exact hacc c hc
    · simp only [h, if_false]
      refine ih (n / 10) (Nat.digitChar (n % 10) :: acc) ?_
      intro c hc
      rcases List.mem_cons.mp hc with rfl | hc
      · exact hdig
      · exact hacc c hc

theorem repr_data (n : Nat) : (Nat.repr n).data = Nat.toDigits 10 n := rfl

theorem repr_isDigit (n : Nat) :
    ∀ c ∈ (Nat.repr n).data, c.isDigit = true := by
  rw [repr_data]
  exact toDigitsCore_isDigit (n + 1) n [] (by simp)

theorem repr_injective {m n : Nat} (h : Nat.repr m = Nat.repr n) : m = n := by
  have hd : Nat.toDigits 10 m = Nat.toDigits 10 n := by
    rw [← repr_data, ← repr_data, h]
  calc m = Matcher.digitsVal (Nat.toDigits 10 m) := (digitsVal_toDigits m).symm
    _ = Matcher.digitsVal (Nat.toDigits 10 n) := by rw [hd]
    _ = n := digitsVal_toDigits n

theorem splitAtB : ∀ (xs₁ xs₂ ys₁ ys₂ : List Char), 'B' ∉ xs₁ → 'B' ∉ xs₂ →
    xs₁ ++ 'B' :: ys₁ = xs₂ ++ 'B' :: ys₂ → xs₁ = xs₂ ∧ ys₁ = ys₂ := by
  intro xs₁
  induction xs₁ with
  | nil =>
    intro xs₂ ys₁ ys₂ _ h₂ heq
    cases xs₂ with
    | nil => simpa using heq
    | cons c cs =>
      simp only [List.nil_append, List.cons_append, List.cons.injEq] at heq
      exact absurd (heq.1 ▸ List.mem_cons_self c cs) h₂
  | cons c cs ih =>
    intro xs₂ ys₁ ys₂ h₁ h₂ heq
    cases xs₂ with
    | nil =>
      simp only [List.cons_append, List.nil_append, List.cons.injEq] at heq
      exact absurd (heq.1 ▸ List.mem_cons_self c cs) h₁
    | cons d ds =>
      simp only [List.cons_append, List.cons.injEq] at heq
      obtain ⟨rfl, heq⟩ := heq
      have := ih ds ys₁ ys₂ (fun hm => h₁ (List.mem_cons_of_mem _ hm))
        (fun hm => h₂ (List.mem_cons_of_mem _ hm)) heq
      exact ⟨by rw [this.1], this.2⟩

theorem isDigit_ne_B {c : Char} (h : c.isDigit = true) : c ≠ 'B' := by
  intro hc
  subst hc
  simp at h

theorem mkSignature_inj {t₁ b₁ t₂ b₂ : Nat}
    (h : Structural.mkSignature t₁ b₁ = Structural.mkSignature t₂ b₂) :
    t₁ = t₂ ∧ b₁ = b₂ := by
  have hdata : ('T' :: ((Nat.repr t₁).data ++ 'B' :: (Nat.repr b₁).data)) =
      ('T' :: ((Nat.repr t₂).data ++ 'B' :: (Nat.repr b₂).data)) := by
    have := congrArg String.data h
    simpa [Structural.mkSignature, String.data_append] using this
  have hsplit := splitAtB (Nat.repr t₁).data (Nat.repr t₂).data
    (Nat.repr b₁).data (Nat.repr b₂).data
    (fun hm => isDigit_ne_B (repr_isDigit t₁ _ hm) rfl)
    (fun hm => isDigit_ne_B (repr_isDigit t₂ _ hm) rfl)
    (List.cons.injEq .. ▸ hdata |>.2)
  constructor
  · exact repr_injective (by
      have : (Nat.repr t₁).data = (Nat.repr t₂).data := hsplit.1
      exact String.ext this)
  · exact repr_injective (by
      have : (Nat.repr b₁).data = (Nat.repr b₂).data := hsplit.2
      exact String.ext this)

/-! ### Structural invariants of the embedded program -/

namespace Structural

/-- A group is well formed when its stored `signature` is the rendering of
its own recipe — true of every group the structural extractor creates. -/
def wellFormed (g : Group) : Prop :=
  g.signature = mkSignature g.recipe.text g.recipe.buttons

theorem pushText_groups (node : DesignNode) (fs : Features) :
    (pushText node fs).groups = fs.groups := by
  simp only [pushText]
  split <;> rfl

theorem pushButton_groups (node : DesignNode) (fs : Features) :
    (pushButton node fs).groups = fs.groups := by
  simp only [pushButton]
  split <;> rfl

theorem pushGroup_groups (node : DesignNode) (fs : Features) :
    (pushGroup node fs).groups = fs.groups ∨
    ∃ t b tot, (pushGroup node fs).groups = fs.groups ++
      [{ name := node.nameOr "Unnamed Group", id := node.id
         gtype := node.ntype, recipe := ⟨t, b, tot⟩
         signature := mkSignature t b
         semanticKeywords := extractSemanticKeywords (node.nameOr "") }] := by
  simp only [pushGroup]
  split
  · split
    · right; exact ⟨_, _, _, rfl⟩
    · left; rfl
  · left; rfl

theorem visitStructural_wf (node : DesignNode) (fs : Features)
    (h : ∀ g ∈ fs.groups, wellFormed g) :
    ∀ g ∈ (visitStructural node fs).groups, wellFormed g := by
  intro g hg
  have hv : (visitStructural node fs).groups = (pushGroup node fs).groups := by
    simp only [visitStructural, pushButton_groups, pushText_groups]
  rw [hv] at hg
  rcases pushGroup_groups node fs with he | ⟨t, b, tot, he⟩
  · rw [he] at hg
    exact h g hg
  · rw [he] at hg
    rcases List.mem_append.mp hg with hg | hg
    · exact h g hg
    · rw [List.mem_singleton] at hg
      subst hg
      rfl

end Structural

mutual

theorem extractFeatures_wf : ∀ (node : DesignNode) (fs : Structural.Features),
    (∀ g ∈ fs.groups, Structural.wellFormed g) →
    ∀ g ∈ (Structural.extractFeatures node fs).groups, Structural.wellFormed g
  | .mk i nm t ch children, fs, h => by
    simp only [Structural.extractFeatures]
    exact extractList_wf children _
      (Structural.visitStructural_wf (.mk i nm t ch children) fs h)

theorem extractList_wf : ∀ (l : List DesignNode) (fs : Structural.Features),
    (∀ g ∈ fs.groups, Structural.wellFormed g) →
    ∀ g ∈ (Structural.extractList l fs).groups, Structural.wellFormed g
  | [], fs, h => by simpa only [Structural.extractList] using h
  | c :: cs, fs, h => by
    simp only [Structural.extractList]
    exact extractList_wf cs _ (extractFeatures_wf c fs h)

end

namespace Structural

/-- The contribution of one identity to `consistent + inconsistent`: its
Android count when it is consistent (all present and equal counts),
otherwise its maximum per-platform count. -/
def idWeight (d : IdData) : Nat :=
  let a := d.counts.android
  let i := d.counts.ios
  let w := d.counts.web
  let platformsPresent :=
    (if a > 0 then ["Android"] else []) ++
    (if i > 0 then ["iOS"] else []) ++
    (if w > 0 then ["Web"] else [])
  if platformsPresent.length = 3 ∧ a = i ∧ i = w then a else maxThree a i w

theorem findSemanticEquivalents_none (nm : String)
    (aG iG wG : List Group) :
    findSemanticEquivalents { name := nm, semanticKeywords := none }
      aG iG wG = [] := by
  simp [findSemanticEquivalents]

theorem processIdentity_sum (ag ig wg : List Group) (res : CompareResults)
    (e : String × IdData) :
    (processIdentity ag ig wg res e).consistent +
      (processIdentity ag ig wg res e).inconsistent =
      res.consistent + res.inconsistent + idWeight e.2 := by
  simp only [processIdentity, idWeight, findSemanticEquivalents_none,
    List.length_nil, gt_iff_lt, lt_self_iff_false, if_false]
  by_cases hc : ((if 0 < e.2.counts.android then ["Android"] else []) ++
      (if 0 < e.2.counts.ios then ["iOS"] else []) ++
      (if 0 < e.2.counts.web then ["Web"] else [])).length = 3 ∧
      e.2.counts.android = e.2.counts.ios ∧ e.2.counts.ios = e.2.counts.web
  · simp only [if_pos hc]
    omega
  · simp only [if_neg hc]
    by_cases hall : ((if 0 < e.2.counts.android then ["Android"] else []) ++
        (if 0 < e.2.counts.ios then ["iOS"] else []) ++
        (if 0 < e.2.counts.web then ["Web"] else [])).length = 3
    · simp only [if_neg (not_not_intro hall)]
      omega
    · simp only [if_pos hall]
      omega

theorem foldl_processIdentity_sum (ag ig wg : List Group) :
    ∀ (ids : List (String × IdData)) (res : CompareResults),
    (ids.foldl (processIdentity ag ig wg) res).consistent +
      (ids.foldl (processIdentity ag ig wg) res).inconsistent =
      res.consistent + res.inconsistent +
        (ids.map (fun e => idWeight e.2)).sum := by
  intro ids
  induction ids with
  | nil => intro res; simp
  | cons e es ih =>
    intro res
    simp only [List.foldl_cons, List.map_cons, List.sum_cons]
    rw [ih (processIdentity ag ig wg res e)]
    have := processIdentity_sum ag ig wg res e
    omega

end Structural

namespace Matcher

theorem runCalls_aux :
    ∀ (ps : List (Structural.Group × Structural.Group))
      (q : List MPair) (t : Bool) (out : List (List MPair)),
    (∀ p ∈ ps, areComponentsSimilarSync p.1 p.2 =
      .queued (p.1.name ++ "__" ++ p.2.name)) →
    runEventsFrom (ps.map (fun p => MEvent.call p.1 p.2) ++ [.timerFire])
        (⟨q, t⟩, out) =
      (⟨[], false⟩, out ++ [q ++ ps.map (fun p => mkPair p.1 p.2)]) := by
  intro ps
  induction ps with
  | nil =>
    intro q t out _
    simp [runEventsFrom, stepEvent]
  | cons p ps ih =>
    intro q t out h
    have hp := h p (List.mem_cons_self p ps)
    simp only [List.map_cons, List.cons_append, runEventsFrom, stepEvent, hp,
      List.append_eq, List.append_nil]
    rw [ih (q ++ [(⟨p.1.name ++ "__" ++ p.2.name, p.1, p.2⟩ : MPair)]) true out
      (fun x hx => h x (List.mem_cons_of_mem p hx))]
    simp [mkPair]

end Matcher

/-! ## Claim theorems

Fixtures (concrete design trees and groups) followed by one theorem per
claim, with witnesses and counterexamples where required. -/

/-- A structural group occurring twice on every platform (C1 fixture). -/
def dupGroup : Structural.Group :=
  ⟨"Card", "g1", "FRAME", ⟨0, 0, 2⟩, "T0B0", []⟩

def dupFeatures : Structural.Features :=
  ⟨[], [], [dupGroup, dupGroup]⟩

/-- **C1** (amended).  The structural reconciler's totals are per-instance
weighted, not per-identity: `consistentCount + inconsistentCount` equals
the sum, over the distinct Identities, of the Identity's Android count when
it is consistent and of its maximum per-platform count otherwise.  (When
every Identity occurs at most once per platform every weight is `1` and the
sum collapses to the number of distinct Identities, which is the case the
original claim describes.) -/
theorem c1_reconciler_totals (aF iF wF : Structural.Features) :
    (Structural.compareFeatures aF iF wF).consistent +
      (Structural.compareFeatures aF iF wF).inconsistent =
      ((Structural.buildIdentities aF.groups iF.groups wF.groups).map
        (fun e => Structural.idWeight e.2)).sum := by
  unfold Structural.compareFeatures
  rw [Structural.foldl_processIdentity_sum]
  simp

/-- **C1** counterexample: a single Identity present twice on each platform
gives `consistent + inconsistent = 2` while there is exactly `1` distinct
Identity, refuting `consistentCount + inconsistentCount = number of
distinct Identities`. -/
theorem c1_counterexample :
    (Structural.compareFeatures dupFeatures dupFeatures dupFeatures).consistent +
      (Structural.compareFeatures dupFeatures dupFeatures dupFeatures).inconsistent
      = 2 ∧
    (Structural.buildIdentities dupFeatures.groups dupFeatures.groups
      dupFeatures.groups).length = 1 ∧
    (Structural.compareFeatures dupFeatures dupFeatures dupFeatures).consistent +
      (Structural.compareFeatures dupFeatures dupFeatures dupFeatures).inconsistent
      ≠ (Structural.buildIdentities dupFeatures.groups dupFeatures.groups
          dupFeatures.groups).length := by
  refine ⟨by decide, by decide, ?_⟩
  decide

/-- C2 fixture: spec example scenario 1 (Android "Search Bar",
iOS "Search Icon", Web "Search Widget", all sharing the `search` keyword). -/
def searchBarTree : DesignNode :=
  .mk "a0" (some "Search Bar") "FRAME" none
    [.mk "a1" (some "Search flights...") "TEXT" (some "Search flights...") [],
     .mk "a2" (some "Search Button") "FRAME" none []]

def searchIconTree : DesignNode :=
  .mk "i0" (some "Search Icon") "COMPONENT" none []

def searchWidgetTree : DesignNode :=
  .mk "w0" (some "Search Widget") "COMPONENT" none []

def c2AndroidFeatures : Structural.Features :=
  Structural.extractFeatures searchBarTree ⟨[], [], []⟩

def c2IosFeatures : Structural.Features :=
  Structural.extractFeatures searchIconTree ⟨[], [], []⟩

def c2WebFeatures : Structural.Features :=
  Structural.extractFeatures searchWidgetTree ⟨[], [], []⟩

/-- **C2** (code bug).  The semantic rescue can never fire: `trackIdentity`
stores only `name`/`signature`/`recipe`/`counts`, so the identity record
passed to `findSemanticEquivalents` has no `semanticKeywords` property and
the equivalents list is always empty (first conjunct).  On the scenario-1
fixture, where every name shares the `search` keyword and the claim (and
the code's own SMART-CHECK comments) demand a consistent
alternative-implementation classification, the reconciler instead reports
every identity as missing and counts them all inconsistent (middle
conjuncts) — even though `findSemanticEquivalents` *would* have produced
the equivalents had the keywords been propagated (last conjunct). -/
theorem c2_rescue_never_fires :
    (∀ (nm : String) (aG iG wG : List Structural.Group),
      Structural.findSemanticEquivalents ⟨nm, none⟩ aG iG wG = []) ∧
    (Structural.compareFeatures c2AndroidFeatures c2IosFeatures
      c2WebFeatures).consistent = 0 ∧
    (Structural.compareFeatures c2AndroidFeatures c2IosFeatures
      c2WebFeatures).inconsistent = 3 ∧
    ((Structural.compareFeatures c2AndroidFeatures c2IosFeatures
      c2WebFeatures).mappingText.map (fun m => m.details)) =
      ["Missing on: iOS, Web", "Missing on: Android, Web",
       "Missing on: Android, iOS"] ∧
    Structural.findSemanticEquivalents ⟨"Search Bar", some ["search"]⟩ []
      c2IosFeatures.groups c2WebFeatures.groups =
      ["Search Icon", "Search Widget"] := by
  refine ⟨Structural.findSemanticEquivalents_none, ?_, ?_, ?_, ?_⟩ <;> decide

/-- **C3** (amended).  Visiting a TEXT node with non-empty trimmed
characters records exactly one feature, named by the trimmed text, and its
category is BUTTON iff the node's own name (lowercased) contains
`button`/`btn` or the **untrimmed** lowercased characters are exactly one
of the closed button-verb set (the source tests the regexp against the
untrimmed text). -/
theorem c3_text_classification (node : DesignNode) (fs : Flat.FeatureSet)
    (htype : node.ntype = "TEXT")
    (hne : strTrim (node.charsOr "") ≠ "") :
    Flat.visitNode node fs =
      Flat.record fs ⟨strTrim (node.charsOr ""),
        Flat.classifyTextElement (node.charsOr "") (node.nameOr "")⟩ ∧
    (Flat.classifyTextElement (node.charsOr "") (node.nameOr "") = .BUTTON ↔
      (strContains (strLower (node.nameOr "")) "button" = true ∨
       strContains (strLower (node.nameOr "")) "btn" = true ∨
       [ "sign in", "sign up", "login", "register", "submit", "continue",
         "next", "back", "cancel"
       ].contains (strLower (node.charsOr "")) = true)) := by
  constructor
  · simp [Flat.visitNode, htype, hne]
  · simp only [Flat.classifyTextElement]
    by_cases h1 : (strContains (strLower (node.nameOr "")) "button" ||
        strContains (strLower (node.nameOr "")) "btn") = true
    · rw [if_pos h1]
      simp only [Bool.or_eq_true] at h1
      exact ⟨fun _ => h1.elim Or.inl (fun h => Or.inr (Or.inl h)),
        fun _ => rfl⟩
    · rw [if_neg h1]
      by_cases h2 : [ "sign in", "sign up", "login", "register", "submit",
          "continue", "next", "back", "cancel"
        ].contains (strLower (node.charsOr "")) = true
      · rw [if_pos h2]
        exact ⟨fun _ => Or.inr (Or.inr h2), fun _ => rfl⟩
      · rw [if_neg h2]
        simp only [Bool.or_eq_true, not_or] at h1
        constructor
        · intro h
          exact absurd h (by decide)
        · intro h
          rcases h with h | h | h
          · exact absurd h h1.1
          · exact absurd h h1.2
          · exact absurd h h2

/-- **C3** witness: a TEXT node named `lbl` with characters `Sign In`
is recorded once and classified BUTTON by the exact-match rule. -/
theorem c3_witness :
    Flat.visitNode (.mk "t1" (some "lbl") "TEXT" (some "Sign In") [])
        ⟨[], [], []⟩ =
      Flat.record ⟨[], [], []⟩
        ⟨strTrim ((DesignNode.mk "t1" (some "lbl") "TEXT" (some "Sign In")
            []).charsOr ""),
         Flat.classifyTextElement
           ((DesignNode.mk "t1" (some "lbl") "TEXT" (some "Sign In")
              []).charsOr "")
           ((DesignNode.mk "t1" (some "lbl") "TEXT" (some "Sign In")
              []).nameOr "")⟩ ∧
    (Flat.classifyTextElement
        ((DesignNode.mk "t1" (some "lbl") "TEXT" (some "Sign In")
           []).charsOr "")
        ((DesignNode.mk "t1" (some "lbl") "TEXT" (some "Sign In")
           []).nameOr "") = .BUTTON ↔
      (strContains (strLower ((DesignNode.mk "t1" (some "lbl") "TEXT"
          (some "Sign In") []).nameOr "")) "button" = true ∨
       strContains (strLower ((DesignNode.mk "t1" (some "lbl") "TEXT"
          (some "Sign In") []).nameOr "")) "btn" = true ∨
       [ "sign in", "sign up", "login", "register", "submit", "continue",
         "next", "back", "cancel"
       ].contains (strLower ((DesignNode.mk "t1" (some "lbl") "TEXT"
          (some "Sign In") []).charsOr "")) = true)) :=
  c3_text_classification (.mk "t1" (some "lbl") "TEXT" (some "Sign In") [])
    ⟨[], [], []⟩ rfl (by decide)

/-- **C3** counterexample: characters `"Next "` (trailing space) trim to
`"Next"`, which is in the button-verb set, so the claim as stated demands
category BUTTON; the code classifies the node TEXT because the regexp is
applied to the untrimmed text. -/
theorem c3_counterexample :
    Flat.classifyTextElement "Next " "lbl" = Flat.FType.TEXT ∧
    strTrim "Next " = "Next" ∧
    ([ "sign in", "sign up", "login", "register", "submit", "continue",
       "next", "back", "cancel"
     ].contains (strLower (strTrim "Next ")) = true) ∧
    strContains (strLower "lbl") "button" = false ∧
    strContains (strLower "lbl") "btn" = false ∧
    (Flat.extractFeatures (.mk "t1" (some "lbl") "TEXT" (some "Next ") [])).all
      = [⟨"Next", Flat.FType.TEXT⟩] := by
  refine ⟨?_, ?_, ?_, ?_, ?_, ?_⟩ <;> decide

/-- C4 fixture: the spec's scenario-2 frame, plus the same node as a
COMPONENT. -/
def loginFrame : DesignNode :=
  .mk "lf" (some "Login Button") "FRAME" none
    [.mk "lt" (some "Sign In") "TEXT" (some "Sign In") []]

def loginComponent : DesignNode :=
  .mk "lc" (some "Login Button") "COMPONENT" none
    [.mk "lct" (some "Sign In") "TEXT" (some "Sign In") []]

/-- **C4** (amended).  The structural extractor produces *no* group for a
FRAME with a single child (it is not a COMPONENT/INSTANCE and has fewer
than 2 children).  If the same node is a COMPONENT it produces exactly one
group, whose recipe is `text = 1, buttons = 0` — the recipe counts only
button-*named* direct children and never consults the button-verb
text rule — so the signature is `"T1B0"` (not `"T0B1"`) and the Identity
`"Login Button|T1B0"` still matches exactly across platforms, extraction
being a pure function of the tree. -/
theorem c4_login_button_group :
    (Structural.extractFeatures loginFrame ⟨[], [], []⟩).groups = [] ∧
    ((Structural.extractFeatures loginComponent ⟨[], [], []⟩).groups.map
      (fun g => (g.name, g.signature, g.recipe.text, g.recipe.buttons,
        g.recipe.total))) =
      [("Login Button", "T1B0", 1, 0, 1)] ∧
    ((Structural.extractFeatures loginComponent ⟨[], [], []⟩).groups.map
      Structural.getIdentity) = ["Login Button|T1B0"] := by
  refine ⟨?_, ?_, ?_⟩ <;> decide

/-- **C4** counterexample: on the claimed input the structural extractor
pushes no StructuralGroup at all, so no group with `buttonCount = 1` and
signature `"T0B1"` exists; moreover the claimed signature differs from the
one the recipe rule would produce. -/
theorem c4_counterexample :
    (Structural.extractFeatures loginFrame ⟨[], [], []⟩).groups = [] ∧
    ((Structural.extractFeatures loginFrame ⟨[], [], []⟩).groups.map
      (fun g => g.signature)).contains "T0B1" = false := by
  refine ⟨?_, ?_⟩ <;> decide

/-- **C5** (confirmed).  `areComponentsSimilar` resolves synchronously to
`false` whenever the recipes' text or button counts differ, and to `true`
whenever name and signature both match — for structural groups, whose
stored signature is the rendering of their own recipe
(`extractFeatures_wf`), signature equality forces recipe equality via
`mkSignature_inj`, so the first filter cannot intercept. -/
theorem c5_fast_paths (a b : Structural.Group) :
    (a.recipe.text ≠ b.recipe.text ∨ a.recipe.buttons ≠ b.recipe.buttons →
      Matcher.areComponentsSimilarSync a b = .resolved false) ∧
    (Structural.wellFormed a → Structural.wellFormed b →
      a.name = b.name → a.signature = b.signature →
      Matcher.areComponentsSimilarSync a b = .resolved true) := by
  constructor
  · intro h
    simp only [Matcher.areComponentsSimilarSync]
    rw [if_pos h]
  · intro wa wb hn hs
    have h1 : Structural.mkSignature a.recipe.text a.recipe.buttons =
        Structural.mkSignature b.recipe.text b.recipe.buttons := by
      rw [← wa, ← wb, hs]
    obtain ⟨ht, hb⟩ := mkSignature_inj h1
    simp only [Matcher.areComponentsSimilarSync]
    rw [if_neg (by simp [ht, hb]), if_pos ⟨hn, hs⟩]

/-- C5 fixtures: two well-formed groups with different recipes, and one
compared with itself. -/
def c5GroupA : Structural.Group :=
  ⟨"Search Bar", "g5a", "FRAME", ⟨1, 2, 3⟩, Structural.mkSignature 1 2, []⟩

def c5GroupB : Structural.Group :=
  ⟨"Search Input", "g5b", "FRAME", ⟨2, 2, 4⟩, Structural.mkSignature 2 2, []⟩

/-- **C5** witness: the differing-recipe pair resolves `false`, the
identical pair resolves `true`, both synchronously. -/
theorem c5_witness :
    Matcher.areComponentsSimilarSync c5GroupA c5GroupB =
      .resolved false ∧
    Matcher.areComponentsSimilarSync c5GroupA c5GroupA =
      .resolved true :=
  ⟨(c5_fast_paths c5GroupA c5GroupB).1 (Or.inl (by decide)),
   (c5_fast_paths c5GroupA c5GroupA).2 rfl rfl rfl rfl⟩

/-- **C6** (confirmed).  If the batched oracle call throws — a non-401
error, or a failed retry after the 401 token refresh — every pair of the
batch resolves to lowercased name equality; on success, a pair whose
verdict is absent from the parsed response resolves to `false`; and in
every case each queued pair receives a verdict (the flush is total, so no
caller's promise is rejected). -/
theorem c6_oracle_failure_fallback (batch : List Matcher.MPair) :
    (∀ (st : Option Nat) (r : Matcher.CallResult), st ≠ some 401 →
      Matcher.flushBatch batch (.err st) r =
        batch.map (fun p => strLower p.c1.name == strLower p.c2.name)) ∧
    (∀ (st2 : Option Nat),
      Matcher.flushBatch batch (.err (some 401)) (.err st2) =
        batch.map (fun p => strLower p.c1.name == strLower p.c2.name)) ∧
    (∀ (body : String) (r : Matcher.CallResult) (i : Nat)
        (h : i < batch.length),
      (Matcher.parseResponse body batch).lookup (batch.get ⟨i, h⟩).id = none →
      (Matcher.flushBatch batch (.ok body) r).get? i = some false) ∧
    (∀ (firstCall r : Matcher.CallResult),
      (Matcher.flushBatch batch firstCall r).length = batch.length) := by
  refine ⟨?_, ?_, ?_, ?_⟩
  · intro st r hst
    cases batch with
    | nil => simp [Matcher.flushBatch, Matcher.batchStructuralMatch]
    | cons c cs =>
      simp [Matcher.flushBatch, Matcher.batchStructuralMatch, hst]
  · intro st2
    cases batch with
    | nil => simp [Matcher.flushBatch, Matcher.batchStructuralMatch]
    | cons c cs =>
      simp [Matcher.flushBatch, Matcher.batchStructuralMatch]
  · intro body r i h hnone
    cases batch with
    | nil => exact absurd h (by simp)
    | cons c cs =>
      simp only [Matcher.flushBatch, Matcher.batchStructuralMatch,
        List.isEmpty_cons, Bool.false_eq_true, if_false] at hnone ⊢
      rw [List.get?_map, List.get?_eq_get h, Option.map_some', hnone]
      rfl
  · intro firstCall r
    unfold Matcher.flushBatch
    cases hbm : Matcher.batchStructuralMatch batch firstCall r with
    | ok m => simp
    | error e => simp

/-- C6 fixture: one ambiguous pair. -/
def c6Batch : List Matcher.MPair :=
  [⟨"Search Bar__Search Input", c5GroupA, c5GroupB⟩]

/-- **C6** witness: a non-401 failure makes the single pair resolve to the
(false, here) name-equality fallback; an unparseable success body makes it
resolve to `false`. -/
theorem c6_witness :
    Matcher.flushBatch c6Batch (.err none) (.ok "x") =
      c6Batch.map (fun p => strLower p.c1.name == strLower p.c2.name) ∧
    (Matcher.flushBatch c6Batch (.ok "garbage") (.err none)).get? 0 =
      some false :=
  ⟨(c6_oracle_failure_fallback c6Batch).1 none (.ok "x") (by decide),
   (c6_oracle_failure_fallback c6Batch).2.2.1 "garbage" (.err none) 0
     (by decide) (by decide)⟩

/-- C7 fixture: `deepChain k` is a chain of `k` single-child FRAMEs ending
in a TEXT node `"Deep"`, which therefore sits at depth `k`. -/
def deepChain : Nat → DesignNode
  | 0 => .mk "d0" (some "Deep") "TEXT" (some "Deep") []
  | k + 1 => .mk "f" (some "Frame") "FRAME" none [deepChain k]

/-- **C7** (amended).  Every extraction mode terminates on every (finite)
tree — all three extractors are total structural recursions — but only the
hierarchical extractor has the depth cap: `extractDetailedHierarchy`
returns `null` beyond `maxDepth` (first conjunct), so on a 17-level
single-child chain the hierarchical tree omits the TEXT node at depth 16
(second conjunct: its inventory holds no text).  The flat and structural
extractors have no depth cap and do include such nodes (see the
counterexample). -/
theorem c7_depth_cap (node : DesignNode) (depth maxDepth : Nat)
    (h : maxDepth < depth) :
    Hier.extractDetailedHierarchy node depth maxDepth = none ∧
    ((Hier.extractHierarchicalFeatures (deepChain 16)).fullTree.map
      (fun t => (Hier.createComponentInventory t).texts.length)) = some 0 := by
  constructor
  · cases node with
    | mk i n t c ch => simp [Hier.extractDetailedHierarchy, h]
  · decide

/-- **C7** witness: the cap fires at depth 16 with `maxDepth = 15`. -/
theorem c7_witness :
    Hier.extractDetailedHierarchy (.mk "x" none "TEXT" none []) 16 15 =
      none ∧
    ((Hier.extractHierarchicalFeatures (deepChain 16)).fullTree.map
      (fun t => (Hier.createComponentInventory t).texts.length)) = some 0 :=
  c7_depth_cap (.mk "x" none "TEXT" none []) 16 15 (by decide)

/-- **C7** counterexample: on the 17-level chain the flat and structural
extractors *include* the TEXT node at depth 16 — nodes beyond the depth cap
are not omitted in those modes. -/
theorem c7_counterexample :
    (Flat.extractFeatures (deepChain 16)).all =
      [⟨"Deep", Flat.FType.TEXT⟩] ∧
    ((Structural.extractFeatures (deepChain 16) ⟨[], [], []⟩).text.map
      (fun t => t.text)) = ["Deep"] := by
  refine ⟨?_, ?_⟩ <;> decide

/-- C8 fixtures: the empty-text node of scenario 3, and a card FRAME
containing two empty-text nodes. -/
def emptyTextNode : DesignNode :=
  .mk "e1" (some "lbl1") "TEXT" (some "") []

def cardTree : DesignNode :=
  .mk "c0" (some "Card") "FRAME" none
    [.mk "c1" (some "lbl1") "TEXT" (some "") [],
     .mk "c2" (some "lbl2") "TEXT" (some "") []]

/-- **C8** (amended).  The node `{type: TEXT, name: "lbl1",
characters: ""}` produces zero features in the flat pass and in the
structural pass (visiting it leaves any accumulator unchanged, wherever it
occurs), and as a standalone tree it yields zero hierarchical cards; but
inside a card, the hierarchical inventory *does* count empty text nodes —
`createComponentInventory` records every `componentType: text` node without
checking its content — as the last conjunct shows (texts tally `2` for a
card holding two empty texts). -/
theorem c8_empty_text (fs : Flat.FeatureSet) (sf : Structural.Features) :
    Flat.visitNode emptyTextNode fs = fs ∧
    Flat.traverse emptyTextNode fs = fs ∧
    Structural.extractFeatures emptyTextNode sf = sf ∧
    (Hier.extractHierarchicalFeatures emptyTextNode).cards = [] ∧
    ((Hier.extractHierarchicalFeatures cardTree).cards.map
      (fun c => c.inventory.texts)) = [2] := by
  refine ⟨rfl, rfl, rfl, by decide, by decide⟩

/-- **C8** counterexample: in the hierarchical card inventory the two
empty-text nodes are counted (`texts = 2`), refuting "zero Features in all
three extraction modes". -/
theorem c8_counterexample :
    ((Hier.extractHierarchicalFeatures cardTree).cards.map
      (fun c => c.inventory.texts)) = [2] ∧ (2 : Nat) ≠ 0 := by
  refine ⟨by decide, by decide⟩

/-- **C9** (confirmed).  N ambiguous `areComponentsSimilar` calls inside
one debounce window (i.e. before the timer fires) enqueue their pairs;
the timer callback drains and clears the queue before the asynchronous
oracle call and issues exactly one oracle request carrying all N pairs, in
order, each exactly once; afterwards the queue is empty and the timer
cleared. -/
theorem c9_batch_coalescing
    (ps : List (Structural.Group × Structural.Group))
    (h : ∀ p ∈ ps, Matcher.areComponentsSimilarSync p.1 p.2 =
      .queued (p.1.name ++ "__" ++ p.2.name)) :
    Matcher.runEvents
        (ps.map (fun p => Matcher.MEvent.call p.1 p.2) ++ [.timerFire])
        ⟨[], false⟩ =
      (⟨[], false⟩, [ps.map (fun p => Matcher.mkPair p.1 p.2)]) := by
  unfold Matcher.runEvents
  simpa using Matcher.runCalls_aux ps [] false [] h

/-- C9 fixtures: an ambiguous pair — equal recipe counts, different
names — that passes both deterministic filters and must be queued. -/
def c9GroupA : Structural.Group :=
  ⟨"Search Bar", "g9a", "FRAME", ⟨1, 0, 2⟩, "T1B0", ["search"]⟩

def c9GroupB : Structural.Group :=
  ⟨"Search Input", "g9b", "FRAME", ⟨1, 0, 3⟩, "T1B0", ["search"]⟩

/-- **C9** witness: two ambiguous calls followed by the timer fire produce
one batch holding both pairs. -/
theorem c9_witness :
    Matcher.runEvents
        ([(c9GroupA, c9GroupB), (c9GroupB, c9GroupA)].map
          (fun p => Matcher.MEvent.call p.1 p.2) ++ [.timerFire])
        ⟨[], false⟩ =
      (⟨[], false⟩,
        [[Matcher.mkPair c9GroupA c9GroupB,
          Matcher.mkPair c9GroupB c9GroupA]]) := by
  have := c9_batch_coalescing [(c9GroupA, c9GroupB), (c9GroupB, c9GroupA)]
    (by decide)
  simpa using this

/-- C10 fixture: a FRAME whose two direct children are TEXT nodes with
button-like names, so each child is counted both in `recipe.text` and in
`recipe.buttons`. -/
def overlapChildren : List DesignNode :=
  [.mk "o1" (some "OK btn") "TEXT" (some "OK") [],
   .mk "o2" (some "Cancel btn") "TEXT" (some "Cancel") []]

def overlapFrame : DesignNode :=
  .mk "o0" (some "Panel") "FRAME" none overlapChildren

/-- **C10** (confirmed).  In the structural extractor, `recipe.text` counts
the direct children of type TEXT, `recipe.buttons` counts the direct
children whose lowercased name contains `button`, `btn` or `cta`, and the
two counts overlap: a frame with two TEXT children named `... btn` gets
`recipe = (text 2, buttons 2, total 2)`, so `text + buttons > total`. -/
theorem c10_recipe_overlap :
    (∀ (i : String) (nm ch : Option String) (children : List DesignNode)
        (fs : Structural.Features),
      1 < children.length →
      ((Structural.pushGroup (.mk i nm "FRAME" ch children) fs).groups.map
        (fun g => g.recipe)) =
        (fs.groups.map (fun g => g.recipe)) ++
        [⟨(children.filter (fun c => c.ntype = "TEXT")).length,
          (children.filter Structural.isButtonNamed).length,
          children.length⟩]) ∧
    ((Structural.extractFeatures overlapFrame ⟨[], [], []⟩).groups.map
      (fun g => (g.recipe.text, g.recipe.buttons, g.recipe.total))) =
      [(2, 2, 2)] ∧
    2 + 2 > 2 := by
  refine ⟨?_, by decide, by decide⟩
  intro i nm ch children fs h
  simp only [Structural.pushGroup, DesignNode.ntype, DesignNode.children]
  rw [if_pos (by decide :
    (["FRAME", "GROUP", "COMPONENT", "INSTANCE"].contains "FRAME") = true)]
  rw [if_pos (Or.inl h)]
  simp

/-- **C10** witness: the general recipe characterisation applied to the
overlap fixture. -/
theorem c10_witness :
    ((Structural.pushGroup overlapFrame ⟨[], [], []⟩).groups.map
      (fun g => g.recipe)) = [⟨2, 2, 2⟩] := by
  have h := c10_recipe_overlap.1 "o0" (some "Panel") none overlapChildren
    ⟨[], [], []⟩ (by decide)
  rw [show overlapFrame =
    .mk "o0" (some "Panel") "FRAME" none overlapChildren from rfl, h]
  decide
